import Mathlib

/-!
Verification development for the kindle-pult conversion pipeline
(src/web.rs). The pipeline turns a web article URL into an epub file:
URL validation, HTML download, readability extraction, image reference
resolution, image download, epub assembly, output write, temp dir removal.

The embedding is shallow: the pipeline and its helpers are translated from
src/web.rs into pure Lean functions. External collaborators (the url crate,
the HTTP transport, the soup HTML scanner, the readability extractor, the
image decoder and the epub container generator) are parameters of the model,
collected in the Env structure; the url crate is an abstract interface
(UrlLib) so theorems hold for every implementation, and a small concrete
instance (CUrl, cLib) is used for concrete runs. Filesystem primitives
(temp dir creation, file create, copy) and the text decoding of a fetched
payload are modelled as succeeding; their plain error propagation is not the
subject of any statement below. Rust panics (unwrap, expect) are explicit
outcomes, one marker per panic site.
-/

namespace KindlePult

variable {U : Type}

deriving instance DecidableEq for Except

/-- Parse errors of the external url crate, at the granularity at which
src/web.rs distinguishes them: the relative-reference error handled
specially at line 157, and every other parse failure. -/
inductive ParseError where
  | relativeUrlWithoutBase
  | other (msg : String)
deriving DecidableEq, Repr

/-- Interface of the external url crate as used by src/web.rs: parsing a
string into a URL value, joining a base URL with a possibly relative
reference, and the path segments of a URL (none for URLs that cannot be a
base). The pipeline is modelled for an arbitrary URL type U and an
arbitrary implementation of this interface. -/
structure UrlLib (U : Type) where
  parse : String → Except ParseError U
  join : U → String → Except ParseError U
  pathSegments : U → Option (List String)

/-- The Article record deserialized from the extractor output
(src/web.rs lines 93-100). -/
structure Article where
  title : Option String
  byline : Option String
  date : Option String
  content : Option String
  plain_content : Option String
deriving DecidableEq, Repr

/-- An img element as discovered by the soup HTML scan: its optional src
attribute (src/web.rs lines 147-148). -/
structure Img where
  src : Option String
deriving DecidableEq, Repr

/-- Flat model of the filesystem touched by a run: association list from
path to file content, most recent write first. -/
abbrev FS := List (String × String)

/-- Create or truncate the file at path p and write content c into it; a
read sees the most recent write, so an earlier file at the same path is
silently overwritten. -/
def fsWrite (fs : FS) (p c : String) : FS :=
  (p, c) :: fs

/-- Content of the file at path p, if present: the most recent write wins. -/
def fsRead : FS → String → Option String
  | [], _ => none
  | (a, c) :: rest, p => if a = p then some c else fsRead rest p

/-- Last element of a list, if any. -/
def lastOf : List α → Option α
  | [] => none
  | [a] => some a
  | _ :: b :: rest => lastOf (b :: rest)

/-- Download file type selector (src/web.rs lines 38-42). -/
inductive DLFileType where
  | text
  | image
deriving DecidableEq, Repr

/-- The Downloader (src/web.rs lines 44-47): target directory for
downloaded files plus the current file type mode. The Cell mutation at
line 184 is modelled by constructing a new value with the other mode. -/
structure Downloader where
  path : String
  file_type : DLFileType
deriving DecidableEq, Repr

/-- An HTTP response as the Downloader consumes it: the final URL after
redirects and the payload. Transport and redirect behaviour live in the
environment function producing these values. -/
structure FetchResponse (U : Type) where
  finalUrl : U
  body : String

/-- Filename derivation of download_from (src/web.rs lines 62-67): the last
path segment of the resolved URL when segments exist and the last one is
nonempty, otherwise the placeholder tmp.bin. -/
def chooseFilename (segs : Option (List String)) : String :=
  (((segs.bind lastOf).bind
    (fun name => if name = "" then none else some name)).getD "tmp.bin")

/-- download_from (src/web.rs lines 57-90): fetch the target, derive the
local filename from the resolved URL, create the destination file and copy
the payload into it, returning the local path. A transport failure is
returned as an error. Both modes write the payload verbatim: text mode
decodes and re-writes the same bytes, image mode streams them. -/
def download_from (lib : UrlLib U) (fetch : U → Option (FetchResponse U))
    (d : Downloader) (target : U) (fs : FS) : Except String (FS × String) :=
  match fetch target with
  | none => .error "http request failed"
  | some response =>
    let filename := chooseFilename (lib.pathSegments response.finalUrl)
    let local_abs_path := d.path ++ "/" ++ filename
    match d.file_type with
    | .text => .ok (fsWrite fs local_abs_path response.body, local_abs_path)
    | .image => .ok (fsWrite fs local_abs_path response.body, local_abs_path)

/-- Sequential image download loop (src/web.rs lines 184-190): every result
is collected, errors included; a failed download leaves the filesystem
unchanged for that iteration. -/
def downloadAll (lib : UrlLib U) (fetch : U → Option (FetchResponse U))
    (d : Downloader) (fs : FS) : List U → FS × List (Except String String)
  | [] => (fs, [])
  | url :: rest =>
    match download_from lib fetch d url fs with
    | .error e =>
      let r := downloadAll lib fetch d fs rest
      (r.1, .error e :: r.2)
    | .ok (fs1, p) =>
      let r := downloadAll lib fetch d fs1 rest
      (r.1, .ok p :: r.2)

/-- Panic sites of epub_from_url, one marker per unwrap or expect call. -/
inductive PanicMsg where
  | targetUrlUnwrap
  | htmlDownloadUnwrap
  | readJson
  | missingSrc
  | targetUrlUnwrapResolver
  | joinImage
  | titleUnwrap
  | bylineUnwrap
  | contentUnwrap
  | imageDownloadUnwrap
  | fileNameUnwrap
  | extUnwrap
deriving DecidableEq, Repr

/-- Outcome of the image resolution block (src/web.rs lines 142-181): a
list of URLs in document order, or the early success return taken on an
unrecognized parse error (line 168), or a panic. -/
inductive ResolveOutcome (U : Type) where
  | urls (l : List U)
  | silentOk
  | panic (msg : PanicMsg)
deriving DecidableEq, Repr

/-- Push one resolved URL in front of the result when resolution of the
remaining elements succeeded, keep the abort otherwise. -/
def ResolveOutcome.consUrl : ResolveOutcome U → U → ResolveOutcome U
  | .urls l, u => .urls (u :: l)
  | .silentOk, _ => .silentOk
  | .panic m, _ => .panic m

/-- Push a whole list of resolved URLs in front of the result when it is a
URL list, keep the abort otherwise. -/
def ResolveOutcome.consAll : ResolveOutcome U → List U → ResolveOutcome U
  | .urls m, l => .urls (l ++ m)
  | .silentOk, _ => .silentOk
  | .panic m, _ => .panic m

/-- Image resolution loop (src/web.rs lines 147-173) over the discovered
img elements: a src that parses is kept as parsed; a src failing with the
relative URL error is joined onto a re-parse of the target string; any
other parse error takes the early Ok return; a missing src attribute, a
failed join, or a failed re-parse unwrap each panic. -/
def resolveImages (lib : UrlLib U) (target : String) : List Img → ResolveOutcome U
  | [] => .urls []
  | img :: rest =>
    match img.src with
    | none => .panic .missingSrc
    | some image_url =>
      match lib.parse image_url with
      | .ok url => (resolveImages lib target rest).consUrl url
      | .error .relativeUrlWithoutBase =>
        match lib.parse target with
        | .error _ => .panic .targetUrlUnwrapResolver
        | .ok target_url =>
          match lib.join target_url image_url with
          | .error _ => .panic .joinImage
          | .ok absolute_url => (resolveImages lib target rest).consUrl absolute_url
      | .error (.other _) => .silentOk

/-- Image URL collection over the optional article content (src/web.rs
lines 142-181): absent content yields the empty list. The findImgs argument
stands for the external soup scan listing img elements in document order. -/
def image_urls_of (lib : UrlLib U) (findImgs : String → List Img)
    (target : String) : Option String → ResolveOutcome U
  | some content => resolveImages lib target (findImgs content)
  | none => .urls []

/-- Reference types used by the builder; only the title page one appears. -/
inductive ReferenceType where
  | titlePage
deriving DecidableEq, Repr

/-- One content section added to the epub builder. -/
structure EpubSection where
  href : String
  body : String
  sectionTitle : Option String
  reftype : Option ReferenceType
deriving DecidableEq, Repr

/-- The document assembled by the epub builder calls (src/web.rs lines
201-227): metadata, embedded resources in insertion order as
filename, data and media type triples, and content sections in insertion
order. -/
structure EpubBook where
  author : String
  title : String
  resources : List (String × String × String)
  contents : List EpubSection
deriving DecidableEq, Repr

/-- Split a character list at every occurrence of the given character. -/
def splitOnChar (c : Char) : List Char → List (List Char)
  | [] => [[]]
  | x :: xs =>
    let r := splitOnChar c xs
    if x = c then [] :: r
    else
      match r with
      | [] => [[x]]
      | y :: ys => (x :: y) :: ys

/-- Model of Path file_name as used on the downloader-produced paths
(src/web.rs line 210): the last slash-separated nonempty component, none
when there is no such component or it is a dot component. -/
def fileName (p : String) : Option String :=
  match lastOf ((splitOnChar '/' p.data).filter (fun c => !c.isEmpty)) with
  | none => none
  | some c => if c = ['.'] ∨ c = ['.', '.'] then none else some (String.mk c)

/-- Model of Path extension (src/web.rs line 211): the part of the file
name after its last dot, none when the file name has no dot or only a
leading dot. -/
def extension (p : String) : Option String :=
  (fileName p).bind fun f =>
    match splitOnChar '.' f.data with
    | [] => none
    | [_] => none
    | [[], _] => none
    | parts => (lastOf parts).map String.mk

/-- Abort modes of the assembly loop: a panic from an unwrap, or an error
propagated with the question mark operator. -/
inductive AssembleAbort where
  | panic (msg : PanicMsg)
  | err (msg : String)
deriving DecidableEq, Repr

/-- Resource adding loop of the assembly (src/web.rs lines 205-219): each
collected download result is unwrapped (panicking if that download failed),
the filename and extension are taken from the local path (panicking when
absent), the file is opened and decoded by the image library (failures
propagate as errors), and the decoded bytes are added as a resource whose
media type is the string image/ followed by the extension verbatim. -/
def addImages (decode : String → Option String) (fs : FS) :
    List (Except String String) → Except AssembleAbort (List (String × String × String))
  | [] => .ok []
  | r :: rest =>
    match r with
    | .error _ => .error (.panic .imageDownloadUnwrap)
    | .ok img =>
      match fileName img with
      | none => .error (.panic .fileNameUnwrap)
      | some filename =>
        match extension img with
        | none => .error (.panic .extUnwrap)
        | some ext0 =>
          match fsRead fs img with
          | none => .error (.err "image open failed")
          | some stored =>
            match decode stored with
            | none => .error (.err "image decode failed")
            | some img_decoded =>
              match addImages decode fs rest with
              | .error a => .error a
              | .ok res => .ok ((filename, img_decoded, "image/" ++ ext0) :: res)

/-- Assembly (src/web.rs lines 201-227): set author and title metadata, add
one resource per collected image download, then the title page section and
the single chapter section holding the raw article content. -/
def assemble (decode : String → Option String) (fs : FS)
    (epub_title epub_author epub_content : String)
    (results : List (Except String String)) : Except AssembleAbort EpubBook :=
  match addImages decode fs results with
  | .error a => .error a
  | .ok res =>
    .ok { author := epub_author
          title := epub_title
          resources := res
          contents := [
            { href := "title.xhtml"
              body := epub_title
              sectionTitle := some epub_title
              reftype := some .titlePage },
            { href := "article.xhtml"
              body := epub_content
              sectionTitle := none
              reftype := none } ] }

/-- Result of a run of epub_from_url: the returned value or a panic. -/
inductive Outcome where
  | ok
  | err (msg : String)
  | panic (msg : PanicMsg)
deriving DecidableEq, Repr

/-- Observable effects of a run: whether the temp dir was created and later
removed, the files on disk, the URLs fetched during the image phase, and
whether the output file was created and then filled. -/
structure RunState (U : Type) where
  tempdirCreated : Bool
  fs : FS
  imageFetchUrls : List U
  outputCreated : Bool
  outputWritten : Bool
  tempdirRemoved : Bool
deriving DecidableEq, Repr

/-- State at the start of a run: nothing created. -/
def initState (U : Type) : RunState U :=
  { tempdirCreated := false
    fs := []
    imageFetchUrls := []
    outputCreated := false
    outputWritten := false
    tempdirRemoved := false }

/-- Name of the per-run temp directory (tempfile Builder with the
kindle-pult_ name lead, src/web.rs line 117); the random part is fixed in
the model. -/
def tmpDirPath : String := "kindle-pult_tmp0"

/-- Starts-with test on character lists. -/
def leadsWith : List Char → List Char → Bool
  | [], _ => true
  | _ :: _, [] => false
  | a :: as, b :: bs => a == b && leadsWith as bs

/-- Removal of the temp directory (src/web.rs line 235): drop every file
under it. -/
def removeDir (dir : String) (fs : FS) : FS :=
  fs.filter (fun e => !leadsWith (dir ++ "/").data e.1.data)

/-- External collaborators of a run: the url library; the HTTP transport
(none is a transport error, redirects happen inside); the composite
extractor step covering the external command, the file read and the
deserialization (none is the expect panic of lines 138-139); the soup img
scan; the image decoder acting on stored file content; and the epub
container generation. -/
structure Env (U : Type) where
  urls : UrlLib U
  fetch : U → Option (FetchResponse U)
  extract : Option Article
  findImgs : String → List Img
  decode : String → Option String
  generate : EpubBook → Except String String

/-- Image download phase and epub build phase (src/web.rs lines 184-237),
entered with the resolved image URLs. All images are downloaded first; the
output file book.epub is then created empty (line 195); the required
article fields are unwrapped only after that (lines 197-199); the document
bytes are copied into the output file only after a successful generation
(line 231), and only then is the temp directory removed (line 235). -/
def fetchAndBuild (env : Env U) (article : Article) (image_urls : List U)
    (s2 : RunState U) : Outcome × RunState U :=
  let dl := downloadAll env.urls env.fetch (Downloader.mk tmpDirPath DLFileType.image)
    s2.fs image_urls
  let s4 : RunState U :=
    { s2 with
      fs := fsWrite dl.1 "book.epub" ""
      imageFetchUrls := image_urls
      outputCreated := true }
  match article.title with
  | none => (.panic .titleUnwrap, s4)
  | some epub_title =>
    match article.byline with
    | none => (.panic .bylineUnwrap, s4)
    | some epub_author =>
      match article.content with
      | none => (.panic .contentUnwrap, s4)
      | some epub_content =>
        match assemble env.decode s4.fs epub_title epub_author epub_content dl.2 with
        | .error (.panic m) => (.panic m, s4)
        | .error (.err m) => (.err m, s4)
        | .ok book =>
          match env.generate book with
          | .error m => (.err m, s4)
          | .ok bytes =>
            (.ok, { s4 with
                    fs := removeDir tmpDirPath (fsWrite s4.fs "book.epub" bytes)
                    outputWritten := true
                    tempdirRemoved := true })

/-- The run after URL validation succeeded (src/web.rs lines 117-237):
temp dir creation, re-parse and unwrap of the target string, HTML download,
extraction, image resolution, then the fetch and build phase. The early Ok
return on an unrecognized img src parse error (line 168) leaves the
collected state as is. -/
def afterValidate (env : Env U) (target : String) : Outcome × RunState U :=
  let s1 : RunState U := { initState U with tempdirCreated := true }
  match env.urls.parse target with
  | .error _ => (.panic .targetUrlUnwrap, s1)
  | .ok target_url =>
    match download_from env.urls env.fetch
        (Downloader.mk tmpDirPath DLFileType.text) target_url s1.fs with
    | .error _ => (.panic .htmlDownloadUnwrap, s1)
    | .ok (fs1, _) =>
      let s2 : RunState U := { s1 with fs := fs1 }
      match env.extract with
      | none => (.panic .readJson, s2)
      | some article =>
        match image_urls_of env.urls env.findImgs target article.content with
        | .silentOk => (.ok, s2)
        | .panic m => (.panic m, s2)
        | .urls image_urls => fetchAndBuild env article image_urls s2

/-- The whole pipeline epub_from_url (src/web.rs lines 103-238): a target
string failing URL validation returns Ok immediately with no effect (lines
108-114); otherwise the run proceeds through the phases. -/
def epub_from_url (env : Env U) (target : String) : Outcome × RunState U :=
  match env.urls.parse target with
  | .error _ => (.ok, initState U)
  | .ok _ => afterValidate env target

/-- Expected absolute URL of one img element, following the specification
wording for resolution: the src parsed as is when absolute, the join of the
origin and the src when the src is a relative reference, nothing otherwise. -/
def specImgUrl (lib : UrlLib U) (origin : U) (img : Img) : Option U :=
  img.src.bind fun s =>
    match lib.parse s with
    | .ok u => some u
    | .error .relativeUrlWithoutBase =>
      match lib.join origin s with
      | .ok u => some u
      | .error _ => none
    | .error (.other _) => none

/-- Expected resolution of a whole img list following the specification
wording: one absolute URL per img element, in document order. -/
def specResolve (lib : UrlLib U) (origin : U) : List Img → Option (List U)
  | [] => some []
  | img :: rest =>
    match specImgUrl lib origin img with
    | none => none
    | some u => (specResolve lib origin rest).map (u :: ·)

/-- Expected embedded resource for one collected download result following
the specification wording: filename and extension from the local path,
decoded content, media type image/ plus the extension verbatim. -/
def specResource (decode : String → Option String) (fs : FS)
    (r : Except String String) : Option (String × String × String) :=
  match r with
  | .error _ => none
  | .ok img =>
    (fileName img).bind fun filename =>
      (extension img).bind fun ext0 =>
        (fsRead fs img).bind fun stored =>
          (decode stored).map fun d => (filename, d, "image/" ++ ext0)

/-- Expected resource list following the specification wording: one
resource per collected download result. -/
def specAddImages (decode : String → Option String) (fs : FS) :
    List (Except String String) → Option (List (String × String × String))
  | [] => some []
  | r :: rest =>
    match specResource decode fs r with
    | none => none
    | some t => (specAddImages decode fs rest).map (t :: ·)

/-- A concrete URL value instantiating the abstract interface in concrete
runs: scheme, host and path segments; every value is an absolute URL. -/
structure CUrl where
  scheme : String
  host : String
  path : List String
deriving DecidableEq, Repr

/-- Concrete parse covering the shapes exercised in concrete runs: a string
with no colon is a relative reference; a scheme followed by a colon, two
slashes, a nonempty host and slash-separated segments is absolute; other
shapes are other errors. -/
def cParse (s : String) : Except ParseError CUrl :=
  match splitOnChar ':' s.data with
  | [_] => .error .relativeUrlWithoutBase
  | [sch, rest] =>
    match rest with
    | '/' :: '/' :: hostpath =>
      match splitOnChar '/' hostpath with
      | [] => .error (.other "empty")
      | host :: segs =>
        if host.isEmpty then .error (.other "empty host")
        else .ok { scheme := String.mk sch
                   host := String.mk host
                   path := segs.map String.mk }
    | _ => .error (.other "non hierarchical")
  | _ => .error (.other "several colons")

/-- Concrete join covering the shapes exercised in concrete runs: an
absolute path reference replaces the whole path; a relative reference
replaces the last segment. -/
def cJoin (base : CUrl) (rel : String) : Except ParseError CUrl :=
  match rel.data with
  | '/' :: rest => .ok { base with path := (splitOnChar '/' rest).map String.mk }
  | chars => .ok { base with path := base.path.dropLast ++ (splitOnChar '/' chars).map String.mk }

/-- The concrete url library instance. -/
def cLib : UrlLib CUrl :=
  { parse := cParse, join := cJoin, pathSegments := fun u => some u.path }

/-- Article of the end-to-end example run. -/
def articleGood : Article :=
  { title := some "T"
    byline := some "B"
    date := none
    content := some "CONTENT"
    plain_content := none }

/-- Img list of the end-to-end example run: one relative src and one
absolute src. -/
def imgsGood : List Img :=
  [ { src := some "photo.jpg" }, { src := some "https://cdn.example/logo.png" } ]

/-- Target URL string of the concrete runs. -/
def targetGood : String := "https://news.example/article-1"

/-- Parsed target URL. -/
def newsUrl : CUrl :=
  { scheme := "https", host := "news.example", path := ["article-1"] }

/-- Resolved photo URL, joined from the relative reference. -/
def photoUrl : CUrl :=
  { scheme := "https", host := "news.example", path := ["photo.jpg"] }

/-- Parsed CDN logo URL. -/
def logoUrl : CUrl :=
  { scheme := "https", host := "cdn.example", path := ["logo.png"] }

/-- Environment of the end-to-end example run. -/
def envGood : Env CUrl :=
  { urls := cLib
    fetch := fun u => some { finalUrl := u, body := "IMGBYTES" }
    extract := some articleGood
    findImgs := fun _ => imgsGood
    decode := fun b => some ("D" ++ b)
    generate := fun _ => .ok "EPUB" }

/-- Article with no title. -/
def articleNoTitle : Article :=
  { articleGood with title := none }

/-- Environment identical to the example run except that extraction lacks
a title. -/
def envNoTitle : Env CUrl :=
  { envGood with extract := some articleNoTitle }

/-- Img whose src fails parsing with an error other than the relative one. -/
def imgBadSrc : Img := { src := some "http://" }

/-- Environment whose content holds one img with an unparseable src. -/
def envBadSrc : Env CUrl :=
  { envGood with findImgs := fun _ => [imgBadSrc] }

/-- Img list whose second element lacks its src attribute. -/
def imgsMissing : List Img :=
  [ { src := some "https://cdn.example/logo.png" }, { src := none } ]

/-- One-file filesystem used by the concrete assembly runs. -/
def fsJPG : FS := fsWrite [] "kindle-pult_tmp0/photo.JPG" "IMG"

/-- Identity decoder used by the concrete assembly runs. -/
def decodeId : String → Option String := fun b => some b

/-- Download results used by the concrete assembly runs. -/
def resultsJPG : List (Except String String) :=
  [Except.ok "kindle-pult_tmp0/photo.JPG"]

/-- Expected book of the concrete assembly run. -/
def bookJPG : EpubBook :=
  { author := "B"
    title := "T"
    resources := [("photo.JPG", "IMG", "image/JPG")]
    contents := [
      { href := "title.xhtml", body := "T", sectionTitle := some "T", reftype := some ReferenceType.titlePage },
      { href := "article.xhtml", body := "CONTENT", sectionTitle := none, reftype := none } ] }

/-- Reading right after writing returns the written content, whatever was
stored at that path before. -/
theorem fsRead_fsWrite_self (fs : FS) (p c : String) :
    fsRead (fsWrite fs p c) p = some c := by
  simp [fsRead, fsWrite]

/-- Writing one path leaves every other path unchanged. -/
theorem fsRead_fsWrite_ne (fs : FS) (p c q : String) (h : q ≠ p) :
    fsRead (fsWrite fs p c) q = fsRead fs q := by
  have hne : ¬ (p = q) := fun hc => h hc.symm
  simp [fsRead, fsWrite, hne]

/-- Pushing the empty list in front of a resolution result changes nothing. -/
theorem consAll_nil (r : ResolveOutcome U) : r.consAll [] = r := by
  cases r <;> simp [ResolveOutcome.consAll]

/-- Pushing a head URL after a whole list agrees with pushing the longer
list at once. -/
theorem consAll_consUrl (r : ResolveOutcome U) (l : List U) (u : U) :
    (r.consAll l).consUrl u = r.consAll (u :: l) := by
  cases r <;> simp [ResolveOutcome.consAll, ResolveOutcome.consUrl]

/-- Resolution of a concatenated img list: when the first block resolves to
a URL list, resolution continues over the second block and the collected
URLs are prepended. -/
theorem resolveImages_append (lib : UrlLib U) (target : String) (xs : List Img) :
    ∀ (ys : List Img) (l : List U), resolveImages lib target xs = .urls l →
      resolveImages lib target (xs ++ ys) = (resolveImages lib target ys).consAll l := by
  induction xs with
  | nil =>
    intro ys l h
    simp only [resolveImages] at h
    cases h
    simp [consAll_nil]
  | cons img rest ih =>
    intro ys l h
    rw [List.cons_append]
    simp only [resolveImages] at h ⊢
    cases hsrc : img.src with
    | none => simp [hsrc] at h
    | some s =>
      simp only [hsrc] at h ⊢
      cases hps : lib.parse s with
      | ok u =>
        simp only [hps] at h ⊢
        cases hr : resolveImages lib target rest with
        | urls l0 =>
          simp only [hr, ResolveOutcome.consUrl] at h
          injection h with h
          subst h
          rw [ih ys l0 hr, consAll_consUrl]
        | silentOk => simp [hr, ResolveOutcome.consUrl] at h
        | panic m => simp [hr, ResolveOutcome.consUrl] at h
      | error e =>
        cases e with
        | relativeUrlWithoutBase =>
          simp only [hps] at h ⊢
          cases hpt : lib.parse target with
          | error e2 => simp [hpt] at h
          | ok tu =>
            simp only [hpt] at h ⊢
            cases hj : lib.join tu s with
            | error e3 => simp [hj] at h
            | ok au =>
              simp only [hj] at h ⊢
              cases hr : resolveImages lib target rest with
              | urls l0 =>
                simp only [hr, ResolveOutcome.consUrl] at h
                injection h with h
                subst h
                rw [ih ys l0 hr, consAll_consUrl]
              | silentOk => simp [hr, ResolveOutcome.consUrl] at h
              | panic m => simp [hr, ResolveOutcome.consUrl] at h
        | other m2 => simp [hps] at h

/-- Resolution agrees with the specification description whenever it
completes with a URL list: each img contributes exactly its expected
absolute URL, in document order. -/
theorem resolveImages_spec (lib : UrlLib U) (target : String) (origin : U)
    (hp : lib.parse target = .ok origin) (imgs : List Img) :
    ∀ l : List U, resolveImages lib target imgs = .urls l →
      specResolve lib origin imgs = some l := by
  induction imgs with
  | nil =>
    intro l h
    simp only [resolveImages] at h
    cases h
    rfl
  | cons img rest ih =>
    intro l h
    simp only [resolveImages] at h
    simp only [specResolve, specImgUrl]
    cases hsrc : img.src with
    | none => simp [hsrc] at h
    | some s =>
      simp only [hsrc, Option.some_bind] at h ⊢
      cases hps : lib.parse s with
      | ok u =>
        simp only [hps] at h ⊢
        cases hr : resolveImages lib target rest with
        | urls l0 =>
          simp only [hr, ResolveOutcome.consUrl] at h
          injection h with h
          subst h
          simp [ih l0 hr]
        | silentOk => simp [hr, ResolveOutcome.consUrl] at h
        | panic m => simp [hr, ResolveOutcome.consUrl] at h
      | error e =>
        cases e with
        | relativeUrlWithoutBase =>
          simp only [hps, hp] at h ⊢
          cases hj : lib.join origin s with
          | error e3 => simp [hj] at h
          | ok au =>
            simp only [hj] at h ⊢
            cases hr : resolveImages lib target rest with
            | urls l0 =>
              simp only [hr, ResolveOutcome.consUrl] at h
              injection h with h
              subst h
              simp [ih l0 hr]
            | silentOk => simp [hr, ResolveOutcome.consUrl] at h
            | panic m => simp [hr, ResolveOutcome.consUrl] at h
        | other m2 => simp [hps] at h

/-- The expected resolution produces one URL per img element. -/
theorem specResolve_length (lib : UrlLib U) (origin : U) (imgs : List Img) :
    ∀ l : List U, specResolve lib origin imgs = some l → l.length = imgs.length := by
  induction imgs with
  | nil =>
    intro l h
    simp only [specResolve] at h
    cases h
    rfl
  | cons img rest ih =>
    intro l h
    simp only [specResolve] at h
    cases hs : specImgUrl lib origin img with
    | none => simp [hs] at h
    | some u =>
      simp only [hs] at h
      cases hr : specResolve lib origin rest with
      | none => simp [hr] at h
      | some l0 =>
        simp only [hr, Option.map_some] at h
        injection h with h
        subst h
        simp [ih l0 hr]

/-- An img lacking its src attribute keeps resolution from ever returning a
URL list, wherever the img sits. -/
theorem resolveImages_missing_src_no_urls (lib : UrlLib U) (target : String)
    (imgs : List Img) (i : Img) (hmem : i ∈ imgs) (hsrc : i.src = none) :
    ∀ l : List U, resolveImages lib target imgs ≠ .urls l := by
  induction imgs with
  | nil => cases hmem
  | cons hd rest ih =>
    intro l h
    simp only [resolveImages] at h
    rcases List.mem_cons.mp hmem with he | hm
    · subst he
      simp [hsrc] at h
    · cases hhd : hd.src with
      | none => simp [hhd] at h
      | some s =>
        simp only [hhd] at h
        cases hps : lib.parse s with
        | ok u =>
          cases hr : resolveImages lib target rest with
          | urls l0 => exact ih hm l0 hr
          | silentOk => simp [hps, hr, ResolveOutcome.consUrl] at h
          | panic m => simp [hps, hr, ResolveOutcome.consUrl] at h
        | error e =>
          cases e with
          | relativeUrlWithoutBase =>
            cases hpt : lib.parse target with
            | error e2 => simp [hps, hpt] at h
            | ok tu =>
              cases hj : lib.join tu s with
              | error e3 => simp [hps, hpt, hj] at h
              | ok au =>
                cases hr : resolveImages lib target rest with
                | urls l0 => exact ih hm l0 hr
                | silentOk => simp [hps, hpt, hj, hr, ResolveOutcome.consUrl] at h
                | panic m => simp [hps, hpt, hj, hr, ResolveOutcome.consUrl] at h
          | other m2 => simp [hps] at h

/-- When the target string parses, the only panics resolution can raise are
the missing src attribute and the failed join; in particular the unwrap of
the re-parsed target never fires. -/
theorem resolveImages_panic_cases (lib : UrlLib U) (target : String) (u : U)
    (hp : lib.parse target = .ok u) (imgs : List Img) :
    ∀ m : PanicMsg, resolveImages lib target imgs = .panic m →
      m = .missingSrc ∨ m = .joinImage := by
  induction imgs with
  | nil => intro m h; simp [resolveImages] at h
  | cons hd rest ih =>
    intro m h
    simp only [resolveImages] at h
    cases hhd : hd.src with
    | none =>
      simp only [hhd] at h
      injection h with h
      exact Or.inl h.symm
    | some s =>
      simp only [hhd] at h
      cases hps : lib.parse s with
      | ok u2 =>
        simp only [hps] at h
        cases hr : resolveImages lib target rest with
        | urls l0 => simp [hr, ResolveOutcome.consUrl] at h
        | silentOk => simp [hr, ResolveOutcome.consUrl] at h
        | panic m2 =>
          simp only [hr, ResolveOutcome.consUrl] at h
          injection h with h
          subst h
          exact ih m2 hr
      | error e =>
        cases e with
        | relativeUrlWithoutBase =>
          simp only [hps, hp] at h
          cases hj : lib.join u s with
          | error e3 =>
            simp only [hj] at h
            injection h with h
            exact Or.inr h.symm
          | ok au =>
            simp only [hj] at h
            cases hr : resolveImages lib target rest with
            | urls l0 => simp [hr, ResolveOutcome.consUrl] at h
            | silentOk => simp [hr, ResolveOutcome.consUrl] at h
            | panic m2 =>
              simp only [hr, ResolveOutcome.consUrl] at h
              injection h with h
              subst h
              exact ih m2 hr
        | other m2 => simp [hps] at h

/-- The resource loop succeeds with a resource list exactly when the
expected per-result construction succeeds with the same list. -/
theorem addImages_ok_iff (decode : String → Option String) (fs : FS)
    (results : List (Except String String)) :
    ∀ res, addImages decode fs results = .ok res ↔
      specAddImages decode fs results = some res := by
  induction results with
  | nil =>
    intro res
    simp [addImages, specAddImages]
  | cons r rest ih =>
    intro res
    simp only [addImages, specAddImages, specResource]
    cases r with
    | error e => simp
    | ok img =>
      cases h1 : fileName img with
      | none => simp [h1]
      | some filename =>
        simp only [h1, Option.some_bind]
        cases h2 : extension img with
        | none => simp [h2]
        | some ext0 =>
          simp only [h2, Option.some_bind]
          cases h3 : fsRead fs img with
          | none => simp [h3]
          | some stored =>
            simp only [h3, Option.some_bind]
            cases h4 : decode stored with
            | none => simp [h4]
            | some d =>
              simp only [h4, Option.map_some]
              cases hrest : addImages decode fs rest with
              | error a =>
                simp only [hrest]
                constructor
                · intro h
                  exact absurd h (by simp)
                · intro h
                  cases hspec : specAddImages decode fs rest with
                  | none => simp [hspec] at h
                  | some res0 =>
                    have hok := (ih res0).mpr hspec
                    rw [hrest] at hok
                    exact Except.noConfusion hok
              | ok res0 =>
                have hspec := (ih res0).mp hrest
                simp [hrest, hspec]

/-- A result whose expected resource construction fails keeps the expected
resource list from existing. -/
theorem specAddImages_mem_ne_none (decode : String → Option String) (fs : FS)
    (results : List (Except String String)) (r : Except String String)
    (hmem : r ∈ results) (hfail : specResource decode fs r = none) :
    ∀ res, specAddImages decode fs results ≠ some res := by
  induction results with
  | nil => cases hmem
  | cons hd rest ih =>
    intro res h
    simp only [specAddImages] at h
    rcases List.mem_cons.mp hmem with he | hm
    · subst he
      simp [hfail] at h
    · cases hs : specResource decode fs hd with
      | none => simp [hs] at h
      | some t =>
        simp only [hs] at h
        cases hrest : specAddImages decode fs rest with
        | none => simp [hrest] at h
        | some res0 => exact ih hm res0 hrest

/-- A download result pointing at a stored file whose decode fails has no
expected resource. -/
theorem specResource_decode_fail (decode : String → Option String) (fs : FS)
    (img stored : String) (hread : fsRead fs img = some stored)
    (hdec : decode stored = none) :
    specResource decode fs (Except.ok img) = none := by
  simp only [specResource]
  cases h1 : fileName img with
  | none => rfl
  | some filename =>
    cases h2 : extension img with
    | none => rfl
    | some ext0 => simp [hread, hdec]

/-- The abort panics of the resource loop are the download result unwrap,
the file name unwrap and the extension unwrap. -/
theorem addImages_panic_cases (decode : String → Option String) (fs : FS)
    (results : List (Except String String)) :
    ∀ m : PanicMsg, addImages decode fs results = .error (.panic m) →
      m = .imageDownloadUnwrap ∨ m = .fileNameUnwrap ∨ m = .extUnwrap := by
  induction results with
  | nil => intro m h; simp [addImages] at h
  | cons r rest ih =>
    intro m h
    simp only [addImages] at h
    cases r with
    | error e =>
      injection h with h
      injection h with h
      exact Or.inl h.symm
    | ok img =>
      cases h1 : fileName img with
      | none =>
        simp only [h1] at h
        injection h with h
        injection h with h
        exact Or.inr (Or.inl h.symm)
      | some filename =>
        simp only [h1] at h
        cases h2 : extension img with
        | none =>
          simp only [h2] at h
          injection h with h
          injection h with h
          exact Or.inr (Or.inr h.symm)
        | some ext0 =>
          simp only [h2] at h
          cases h3 : fsRead fs img with
          | none => simp [h3] at h
          | some stored =>
            simp only [h3] at h
            cases h4 : decode stored with
            | none => simp [h4] at h
            | some d =>
              simp only [h4] at h
              cases hrest : addImages decode fs rest with
              | error a =>
                simp only [hrest] at h
                injection h with h
                subst h
                exact ih m hrest
              | ok res0 => simp [hrest] at h

/-- A missing required article field makes the build phase panic right
after the output file was created empty: the panic leaves the empty
book.epub on disk and the document bytes are never written. -/
theorem fetchAndBuild_missing_field (env : Env U) (article : Article)
    (image_urls : List U) (s2 : RunState U)
    (h : article.title = none ∨ article.byline = none ∨ article.content = none) :
    (∃ m, (fetchAndBuild env article image_urls s2).1 = Outcome.panic m)
    ∧ (fetchAndBuild env article image_urls s2).2.outputCreated = true
    ∧ (fetchAndBuild env article image_urls s2).2.outputWritten = s2.outputWritten
    ∧ fsRead (fetchAndBuild env article image_urls s2).2.fs "book.epub" = some "" := by
  cases htitle : article.title with
  | none => simp [fetchAndBuild, htitle, fsRead_fsWrite_self]
  | some t =>
    cases hbyline : article.byline with
    | none => simp [fetchAndBuild, htitle, hbyline, fsRead_fsWrite_self]
    | some b =>
      cases hcontent : article.content with
      | none => simp [fetchAndBuild, htitle, hbyline, hcontent, fsRead_fsWrite_self]
      | some c => simp [htitle, hbyline, hcontent] at h

/-- The build phase entered with a titleless article panics at the title
unwrap, after all images were downloaded and the empty output file was
created. -/
theorem fetchAndBuild_title_none (env : Env U) (article : Article)
    (image_urls : List U) (s2 : RunState U) (h : article.title = none) :
    (fetchAndBuild env article image_urls s2).1 = Outcome.panic .titleUnwrap
    ∧ (fetchAndBuild env article image_urls s2).2.outputCreated = true
    ∧ (fetchAndBuild env article image_urls s2).2.outputWritten = s2.outputWritten
    ∧ (fetchAndBuild env article image_urls s2).2.imageFetchUrls = image_urls := by
  simp [fetchAndBuild, h]

/-- The only panics assembly can raise come from its resource loop. -/
theorem assemble_panic_cases (decode : String → Option String) (fs : FS)
    (epub_title epub_author epub_content : String)
    (results : List (Except String String)) (m : PanicMsg)
    (h : assemble decode fs epub_title epub_author epub_content results
      = .error (.panic m)) :
    m = .imageDownloadUnwrap ∨ m = .fileNameUnwrap ∨ m = .extUnwrap := by
  simp only [assemble] at h
  cases hai : addImages decode fs results with
  | error ab =>
    rw [hai] at h
    cases ab with
    | panic m2 =>
      injection h with h
      injection h with h
      subst h
      exact addImages_panic_cases decode fs results m2 hai
    | err s => exact absurd h (by simp)
  | ok res =>
    rw [hai] at h
    exact Except.noConfusion h

/-- The panics the build phase can raise are the three required field
unwraps and the three resource loop unwraps; in particular neither target
re-parse unwrap can fire there. -/
theorem fetchAndBuild_panic_cases (env : Env U) (article : Article)
    (image_urls : List U) (s2 : RunState U) (m : PanicMsg)
    (h : (fetchAndBuild env article image_urls s2).1 = Outcome.panic m) :
    m = .titleUnwrap ∨ m = .bylineUnwrap ∨ m = .contentUnwrap
    ∨ m = .imageDownloadUnwrap ∨ m = .fileNameUnwrap ∨ m = .extUnwrap := by
  simp only [fetchAndBuild] at h
  cases ht : article.title with
  | none =>
    simp only [ht] at h
    injection h with h
    exact Or.inl h.symm
  | some t =>
    simp only [ht] at h
    cases hb : article.byline with
    | none =>
      simp only [hb] at h
      injection h with h
      exact Or.inr (Or.inl h.symm)
    | some b =>
      simp only [hb] at h
      cases hc : article.content with
      | none =>
        simp only [hc] at h
        injection h with h
        exact Or.inr (Or.inr (Or.inl h.symm))
      | some c =>
        simp only [hc] at h
        split at h
        · rename_i m2 heq
          injection h with h
          subst h
          have := assemble_panic_cases env.decode _ t b c _ m2 heq
          tauto
        · exact absurd h (by simp)
        · split at h
          · exact absurd h (by simp)
          · exact absurd h (by simp)

/-- C4: an input string that fails URL parsing makes the run terminate
cleanly with the success value: no working directory is created, no file is
written, and the filesystem stays empty, so no output file exists either. -/
theorem c4_invalid_url (env : Env U) (target : String) (e : ParseError)
    (h : env.urls.parse target = .error e) :
    epub_from_url env target = (Outcome.ok, initState U)
    ∧ (initState U).tempdirCreated = false
    ∧ (initState U).fs = [] := by
  refine ⟨?_, rfl, rfl⟩
  simp [epub_from_url, h]

/-- C5: an img element lacking its src attribute makes resolution fail hard
for the whole document: no list of resolved URLs can be produced whatever
the surrounding elements do, and when the preceding imgs all resolved, the
outcome is exactly the missing src panic, so the element is not skipped. -/
theorem c5_missing_src (lib : UrlLib U) (target : String)
    (pre post : List Img) (i : Img) (l : List U)
    (hsrc : i.src = none)
    (hpre : resolveImages lib target pre = .urls l) :
    (∀ l2 : List U, resolveImages lib target (pre ++ i :: post) ≠ .urls l2)
    ∧ resolveImages lib target (pre ++ i :: post) = .panic .missingSrc := by
  constructor
  · intro l2
    exact resolveImages_missing_src_no_urls lib target (pre ++ i :: post) i
      (by simp) hsrc l2
  · rw [resolveImages_append lib target pre (i :: post) l hpre]
    simp only [resolveImages, hsrc]
    rfl

/-- C3: image resolution yields one absolute URL per discovered img, in
document order: the parsed src itself when it parses as an absolute URL,
and the join of the origin URL with the src when parsing fails with the
relative URL error; the result is the empty sequence when the content is
absent or holds no img elements. -/
theorem c3_image_resolution (lib : UrlLib U) (findImgs : String → List Img)
    (target : String) (origin : U)
    (hp : lib.parse target = .ok origin) :
    image_urls_of lib findImgs target none = .urls ([] : List U)
    ∧ (∀ c, findImgs c = [] → image_urls_of lib findImgs target (some c) = .urls [])
    ∧ (∀ c (l : List U), image_urls_of lib findImgs target (some c) = .urls l →
        l.length = (findImgs c).length ∧ specResolve lib origin (findImgs c) = some l) := by
  refine ⟨rfl, ?_, ?_⟩
  · intro c hc
    simp [image_urls_of, hc, resolveImages]
  · intro c l h
    simp only [image_urls_of] at h
    have hs := resolveImages_spec lib target origin hp (findImgs c) l h
    exact ⟨specResolve_length lib origin (findImgs c) l hs, hs⟩

/-- C6: a successful fetch writes the payload under the working directory
at a filename derived from the resolved post-redirect URL: the last path
segment when it exists and is nonempty, the fixed placeholder tmp.bin when
that segment is empty or absent; an existing file at that path is silently
overwritten while other paths are untouched, and the returned value is the
local path of the written file. -/
theorem c6_download_filename (lib : UrlLib U)
    (fetch : U → Option (FetchResponse U)) (d : Downloader) (target : U)
    (fs : FS) (resp : FetchResponse U) (fs1 : FS) (p : String)
    (hf : fetch target = some resp)
    (h : download_from lib fetch d target fs = .ok (fs1, p)) :
    p = d.path ++ "/" ++ chooseFilename (lib.pathSegments resp.finalUrl)
    ∧ fsRead fs1 p = some resp.body
    ∧ (∀ q, q ≠ p → fsRead fs1 q = fsRead fs q)
    ∧ (∀ segs s, lib.pathSegments resp.finalUrl = some segs → lastOf segs = some s →
        s ≠ "" → chooseFilename (lib.pathSegments resp.finalUrl) = s)
    ∧ (∀ segs, lib.pathSegments resp.finalUrl = some segs →
        (lastOf segs = none ∨ lastOf segs = some "") →
        chooseFilename (lib.pathSegments resp.finalUrl) = "tmp.bin")
    ∧ (lib.pathSegments resp.finalUrl = none →
        chooseFilename (lib.pathSegments resp.finalUrl) = "tmp.bin") := by
  have hd : download_from lib fetch d target fs
      = .ok (fsWrite fs (d.path ++ "/" ++ chooseFilename (lib.pathSegments resp.finalUrl))
               resp.body,
             d.path ++ "/" ++ chooseFilename (lib.pathSegments resp.finalUrl)) := by
    cases hft : d.file_type <;> simp [download_from, hf, hft]
  rw [hd] at h
  injection h with h
  injection h with h1 h2
  subst h1
  subst h2
  refine ⟨rfl, fsRead_fsWrite_self _ _ _, ?_, ?_, ?_, ?_⟩
  · intro q hq
    exact fsRead_fsWrite_ne _ _ _ _ hq
  · intro segs s h1 h2 h3
    simp [chooseFilename, h1, h2, h3]
  · intro segs h1 h2
    rcases h2 with h2 | h2 <;> simp [chooseFilename, h1, h2]
  · intro h1
    simp [chooseFilename, h1]

/-- C7: every successful assembly sets the author metadata to the byline
and the title metadata to the title, and produces exactly two content
sections in fixed order: first the title page whose body is the literal
title text marked with the title page reference type, then the single
chapter holding the raw article content markup unmodified. -/
theorem c7_assembly_structure (decode : String → Option String) (fs : FS)
    (epub_title epub_author epub_content : String)
    (results : List (Except String String)) (book : EpubBook)
    (h : assemble decode fs epub_title epub_author epub_content results = .ok book) :
    book.author = epub_author
    ∧ book.title = epub_title
    ∧ book.contents = [
        { href := "title.xhtml", body := epub_title, sectionTitle := some epub_title, reftype := some ReferenceType.titlePage },
        { href := "article.xhtml", body := epub_content, sectionTitle := none, reftype := none } ] := by
  simp only [assemble] at h
  cases hai : addImages decode fs results with
  | error a =>
    rw [hai] at h
    exact Except.noConfusion h
  | ok res =>
    rw [hai] at h
    injection h with h
    subst h
    exact ⟨rfl, rfl, rfl⟩

/-- C8: assembly decodes every added image and a decode failure aborts the
whole assembly; each added image becomes a resource whose declared media
type is image/ concatenated with the extension taken verbatim from the
filename, case not normalized, so paths differing only in the casing of
the extension produce different declared media types. -/
theorem c8_media_type (decode : String → Option String) (fs : FS)
    (results : List (Except String String)) :
    (∀ res, addImages decode fs results = .ok res ↔
        specAddImages decode fs results = some res)
    ∧ (∀ img stored, Except.ok img ∈ results → fsRead fs img = some stored →
        decode stored = none →
        ∀ res, addImages decode fs results ≠ .ok res)
    ∧ extension "dir/photo.JPG" = some "JPG"
    ∧ extension "dir/photo.jpg" = some "jpg"
    ∧ ("image/" ++ "JPG" : String) ≠ "image/" ++ "jpg" := by
  refine ⟨addImages_ok_iff decode fs results, ?_, by decide, by decide, by decide⟩
  intro img stored hmem hread hdec res hok
  have hspec := (addImages_ok_iff decode fs results res).mp hok
  exact specAddImages_mem_ne_none decode fs results (Except.ok img) hmem
    (specResource_decode_fail decode fs img stored hread hdec) res hspec

/-- C10: URL parsing is a pure function of its input, so once the initial
parse of the target string succeeds every re-parse of the same unchanged
string succeeds with the same value, and neither unwrap of a re-parsed
target can panic during the run. -/
theorem c10_reparse_deterministic (env : Env U) (target : String) (u : U)
    (hp : env.urls.parse target = .ok u) :
    env.urls.parse target = .ok u
    ∧ (epub_from_url env target).1 ≠ Outcome.panic .targetUrlUnwrap
    ∧ (epub_from_url env target).1 ≠ Outcome.panic .targetUrlUnwrapResolver := by
  refine ⟨hp, ?_⟩
  simp only [epub_from_url, hp, afterValidate, initState]
  cases hdl : download_from env.urls env.fetch (Downloader.mk tmpDirPath DLFileType.text) u
      ({ tempdirCreated := true, fs := [], imageFetchUrls := [], outputCreated := false,
         outputWritten := false, tempdirRemoved := false } : RunState U).fs with
  | error e => simp [hdl]
  | ok pr =>
    rcases pr with ⟨fs1, p1⟩
    simp only [hdl]
    cases hx : env.extract with
    | none => simp
    | some article =>
      simp only []
      cases hres : image_urls_of env.urls env.findImgs target article.content with
      | silentOk => simp [hres]
      | panic m =>
        simp only [hres]
        have hm : m = .missingSrc ∨ m = .joinImage := by
          cases hcontent : article.content with
          | none =>
            rw [hcontent] at hres
            exact absurd hres (by simp [image_urls_of])
          | some c =>
            rw [hcontent] at hres
            simp only [image_urls_of] at hres
            exact resolveImages_panic_cases env.urls target u hp (env.findImgs c) m hres
        rcases hm with hm | hm <;> subst hm <;> simp
      | urls image_urls =>
        simp only [hres]
        constructor
        · intro hcontra
          have := fetchAndBuild_panic_cases env article image_urls _ _ hcontra
          simp at this
        · intro hcontra
          have := fetchAndBuild_panic_cases env article image_urls _ _ hcontra
          simp at this

/-- C2 (amended): a run whose extracted article lacks a title never writes
the output document bytes, and whenever the run got far enough to create
the output file it aborts with the title unwrap panic; the abort does not
happen before the image fetches. -/
theorem c2_missing_title (env : Env U) (target : String) (a : Article)
    (hx : env.extract = some a) (ht : a.title = none) :
    (epub_from_url env target).2.outputWritten = false
    ∧ ((epub_from_url env target).2.outputCreated = true →
        (epub_from_url env target).1 = Outcome.panic .titleUnwrap) := by
  cases hp : env.urls.parse target with
  | error e => simp [epub_from_url, hp, initState]
  | ok u =>
    simp only [epub_from_url, hp, afterValidate, initState]
    cases hdl : download_from env.urls env.fetch (Downloader.mk tmpDirPath DLFileType.text) u
        ({ tempdirCreated := true, fs := [], imageFetchUrls := [], outputCreated := false,
           outputWritten := false, tempdirRemoved := false } : RunState U).fs with
    | error e => simp [hdl]
    | ok pr =>
      rcases pr with ⟨fs1, p1⟩
      simp only [hdl, hx]
      cases hres : image_urls_of env.urls env.findImgs target a.content with
      | silentOk => simp [hres]
      | panic m => simp [hres]
      | urls image_urls =>
        simp only [hres]
        constructor
        · exact ((fetchAndBuild_title_none env a image_urls _ ht).2.2.1).trans rfl
        · intro _
          exact (fetchAndBuild_title_none env a image_urls _ ht).1

/-- C9: the fixed output file book.epub is created empty before the
required field checks; a run that reaches output creation with a missing
title, byline or content aborts with a panic and leaves the empty
book.epub on disk, its document bytes never written. -/
theorem c9_output_created_early (env : Env U) (target : String) (a : Article)
    (hx : env.extract = some a)
    (hmiss : a.title = none ∨ a.byline = none ∨ a.content = none)
    (hcreated : (epub_from_url env target).2.outputCreated = true) :
    (∃ m, (epub_from_url env target).1 = Outcome.panic m)
    ∧ fsRead (epub_from_url env target).2.fs "book.epub" = some ""
    ∧ (epub_from_url env target).2.outputWritten = false := by
  revert hcreated
  cases hp : env.urls.parse target with
  | error e => simp [epub_from_url, hp, initState]
  | ok u =>
    simp only [epub_from_url, hp, afterValidate, initState]
    cases hdl : download_from env.urls env.fetch (Downloader.mk tmpDirPath DLFileType.text) u
        ({ tempdirCreated := true, fs := [], imageFetchUrls := [], outputCreated := false,
           outputWritten := false, tempdirRemoved := false } : RunState U).fs with
    | error e => simp [hdl]
    | ok pr =>
      rcases pr with ⟨fs1, p1⟩
      simp only [hdl, hx]
      cases hres : image_urls_of env.urls env.findImgs target a.content with
      | silentOk => simp [hres]
      | panic m => simp [hres]
      | urls image_urls =>
        simp only [hres]
        intro _
        have hfb := fetchAndBuild_missing_field env a image_urls
          ({ tempdirCreated := true, fs := fs1, imageFetchUrls := [], outputCreated := false,
             outputWritten := false, tempdirRemoved := false } : RunState U) hmiss
        exact ⟨hfb.1, hfb.2.2.2, hfb.2.2.1.trans rfl⟩

/-- C1 (amended): an img src failing to parse with an error other than the
relative URL case aborts the whole resolution and the rest of the run — no
per-image skip, no image fetched, no output file created — but the function
returns the success value Ok after printing the error, not a
distinguishable error value. -/
theorem c1_silent_success (env : Env U) (target : String) (u : U)
    (a : Article) (c : String) (pre post : List Img) (i : Img)
    (s m : String) (l : List U)
    (hp : env.urls.parse target = .ok u)
    (hf : ∃ resp, env.fetch u = some resp)
    (hx : env.extract = some a)
    (hc : a.content = some c)
    (hfind : env.findImgs c = pre ++ i :: post)
    (hpre : resolveImages env.urls target pre = .urls l)
    (hsrc : i.src = some s)
    (herr : env.urls.parse s = .error (.other m)) :
    (epub_from_url env target).1 = Outcome.ok
    ∧ (epub_from_url env target).2.imageFetchUrls = []
    ∧ (epub_from_url env target).2.outputCreated = false
    ∧ (epub_from_url env target).2.outputWritten = false := by
  have hres : image_urls_of env.urls env.findImgs target a.content
      = (ResolveOutcome.silentOk : ResolveOutcome U) := by
    rw [hc]
    simp only [image_urls_of]
    rw [hfind, resolveImages_append env.urls target pre (i :: post) l hpre]
    simp only [resolveImages, hsrc, herr]
    rfl
  rcases hf with ⟨resp, hf⟩
  simp [epub_from_url, hp, afterValidate, initState, download_from, hf, hx, hres]

/-- C1 counterexample: in the concrete run whose content holds one img with
src http followed by an empty host, the src parse fails with an error other
than the relative URL case, yet the pipeline returns the success value Ok:
no distinguishable error value reaches the caller. -/
theorem c1_counterexample :
    cLib.parse "http://" = .error (.other "empty host")
    ∧ envBadSrc.findImgs "CONTENT" = [imgBadSrc]
    ∧ imgBadSrc.src = some "http://"
    ∧ (epub_from_url envBadSrc targetGood).1 = Outcome.ok := by
  exact ⟨by decide, rfl, rfl, by decide⟩

/-- C1 witness: the amended statement at the concrete run with the
unparseable img src. -/
theorem c1_witness :
    (epub_from_url envBadSrc targetGood).1 = Outcome.ok
    ∧ (epub_from_url envBadSrc targetGood).2.imageFetchUrls = []
    ∧ (epub_from_url envBadSrc targetGood).2.outputCreated = false
    ∧ (epub_from_url envBadSrc targetGood).2.outputWritten = false :=
  c1_silent_success envBadSrc targetGood newsUrl articleGood "CONTENT" [] [] imgBadSrc
    "http://" "empty host" [] (by decide) ⟨_, rfl⟩ rfl rfl rfl rfl rfl (by decide)

/-- C2 counterexample: in the concrete run whose extracted article lacks a
title, both image fetches happen and the output file is created before the
run aborts at the title unwrap, so the abort is not before the image
fetches. -/
theorem c2_counterexample :
    envNoTitle.extract = some articleNoTitle
    ∧ articleNoTitle.title = none
    ∧ (epub_from_url envNoTitle targetGood).2.imageFetchUrls = [photoUrl, logoUrl]
    ∧ (epub_from_url envNoTitle targetGood).2.outputCreated = true
    ∧ (epub_from_url envNoTitle targetGood).1 = Outcome.panic .titleUnwrap := by
  exact ⟨rfl, rfl, by decide, by decide, by decide⟩

/-- C2 witness: the amended statement at the concrete titleless run. -/
theorem c2_witness :
    (epub_from_url envNoTitle targetGood).2.outputWritten = false
    ∧ (epub_from_url envNoTitle targetGood).1 = Outcome.panic PanicMsg.titleUnwrap := by
  have h := c2_missing_title envNoTitle targetGood articleNoTitle rfl rfl
  exact ⟨h.1, h.2 (by decide)⟩

/-- C3 witness: resolution of the example img pair produces exactly the two
expected absolute URLs, in order. -/
theorem c3_witness :
    ([photoUrl, logoUrl] : List CUrl).length = imgsGood.length
    ∧ specResolve cLib newsUrl imgsGood = some [photoUrl, logoUrl] := by
  have h := (c3_image_resolution cLib (fun _ => imgsGood) targetGood newsUrl
    (by decide)).2.2 "CONTENT" [photoUrl, logoUrl] (by decide)
  exact h

/-- C4 witness: the invalid input string leaves the run with the success
value and the empty initial state. -/
theorem c4_witness :
    epub_from_url envGood "not a url" = (Outcome.ok, initState CUrl)
    ∧ (initState CUrl).tempdirCreated = false
    ∧ (initState CUrl).fs = [] :=
  c4_invalid_url envGood "not a url" ParseError.relativeUrlWithoutBase (by decide)

/-- C5 witness: the img pair whose second element lacks its src makes the
concrete resolution end in the missing src panic. -/
theorem c5_witness :
    resolveImages cLib targetGood imgsMissing = ResolveOutcome.panic PanicMsg.missingSrc :=
  (c5_missing_src cLib targetGood [ { src := some "https://cdn.example/logo.png" } ] []
    { src := none } [logoUrl] rfl (by decide)).2

/-- C6 witness: the concrete logo download writes the payload at the
filename derived from the URL path and returns that local path. -/
theorem c6_witness :
    ("kindle-pult_tmp0/logo.png" : String)
      = tmpDirPath ++ "/" ++ chooseFilename (cLib.pathSegments logoUrl)
    ∧ fsRead (fsWrite [] "kindle-pult_tmp0/logo.png" "IMGBYTES") "kindle-pult_tmp0/logo.png"
      = some "IMGBYTES" := by
  have h := c6_download_filename cLib envGood.fetch
    (Downloader.mk tmpDirPath DLFileType.image) logoUrl []
    { finalUrl := logoUrl, body := "IMGBYTES" }
    (fsWrite [] "kindle-pult_tmp0/logo.png" "IMGBYTES") "kindle-pult_tmp0/logo.png"
    rfl (by decide)
  exact ⟨h.1, h.2.1⟩

/-- C7 witness: the concrete assembly run produces exactly the expected
book with its two sections in order. -/
theorem c7_witness :
    assemble decodeId fsJPG "T" "B" "CONTENT" resultsJPG = Except.ok bookJPG
    ∧ bookJPG.author = "B"
    ∧ bookJPG.title = "T"
    ∧ bookJPG.contents = [
        { href := "title.xhtml", body := "T", sectionTitle := some "T", reftype := some ReferenceType.titlePage },
        { href := "article.xhtml", body := "CONTENT", sectionTitle := none, reftype := none } ] := by
  have heq : assemble decodeId fsJPG "T" "B" "CONTENT" resultsJPG = Except.ok bookJPG := by
    decide
  have h := c7_assembly_structure decodeId fsJPG "T" "B" "CONTENT" resultsJPG bookJPG heq
  exact ⟨heq, h.1, h.2.1, h.2.2⟩

/-- C8 witness: the concrete resource loop agrees with its expected
construction, and the two extension casings yield distinct media types. -/
theorem c8_witness :
    (addImages decodeId fsJPG resultsJPG = .ok [("photo.JPG", "IMG", "image/JPG")] ↔
      specAddImages decodeId fsJPG resultsJPG = some [("photo.JPG", "IMG", "image/JPG")])
    ∧ extension "dir/photo.JPG" = some "JPG"
    ∧ extension "dir/photo.jpg" = some "jpg"
    ∧ ("image/" ++ "JPG" : String) ≠ "image/" ++ "jpg" := by
  have h := c8_media_type decodeId fsJPG resultsJPG
  exact ⟨h.1 _, h.2.2.1, h.2.2.2.1, h.2.2.2.2⟩

/-- C9 witness: the concrete titleless run leaves the empty book.epub on
disk with the document bytes never written. -/
theorem c9_witness :
    fsRead (epub_from_url envNoTitle targetGood).2.fs "book.epub" = some ""
    ∧ (epub_from_url envNoTitle targetGood).2.outputWritten = false := by
  have h := c9_output_created_early envNoTitle targetGood articleNoTitle rfl
    (Or.inl rfl) (by decide)
  exact ⟨h.2.1, h.2.2⟩

/-- C10 witness: the concrete example run never ends in either target
re-parse unwrap panic. -/
theorem c10_witness :
    (epub_from_url envGood targetGood).1 ≠ Outcome.panic PanicMsg.targetUrlUnwrap
    ∧ (epub_from_url envGood targetGood).1 ≠ Outcome.panic PanicMsg.targetUrlUnwrapResolver := by
  have h := c10_reparse_deterministic envGood targetGood newsUrl (by decide)
  exact ⟨h.2.1, h.2.2⟩

end KindlePult
